import Mathlib

/-!
# Verification of `pdf_to_webp.py`

A shallow embedding of the thumbnail-generator script `src/pdf_to_webp.py`
together with proofs about its specification.

Embedding conventions:

* Strings are `String` / `List Char`; the regex substitutions of
  `to_snake_case` are embedded as recursive functions implementing the exact
  left-to-right, non-overlapping scan of `re.sub` for the three concrete
  patterns appearing in the source.
* The aspect-ratio arithmetic of `create_uniform_thumbnail` (Python floats)
  is embedded over exact rationals `ℚ`; `int(...)` (truncation toward zero)
  is `pyInt`, and Python's floor division `//` is `Int.fdiv`.
* PIL images are embedded at the provenance level: an `Image` records its
  pixel dimensions and, for every coordinate, whether the pixel is the white
  canvas background (`Pix.bg`), derived from the source raster (`Pix.src`),
  or out-of-bounds fill produced by `crop` (`Pix.pad`).  Lanczos resampling
  is an external capability: the embedding records only that every in-bounds
  pixel of a resized image is derived from the source image.
* A Python exception raised and caught by the `try`/`except` block of
  `create_uniform_thumbnail` (e.g. `ZeroDivisionError`) is embedded as
  `none`; the `return False` path is `Option.isSome = false`.
-/

namespace PdfToWebp

/-! ## ASCII character classes (the regex character classes of the source) -/

/-- The regex class `[A-Z]` (codepoints 65–90). -/
abbrev isUpperA (c : Char) : Prop := 65 ≤ c.toNat ∧ c.toNat ≤ 90

/-- The regex class `[a-z]` (codepoints 97–122). -/
abbrev isLowerA (c : Char) : Prop := 97 ≤ c.toNat ∧ c.toNat ≤ 122

/-- The regex class `[0-9]` (codepoints 48–57). -/
abbrev isDigitA (c : Char) : Prop := 48 ≤ c.toNat ∧ c.toNat ≤ 57

/-- The regex class `[a-zA-Z0-9]` from `re.sub(r'[^a-zA-Z0-9]', '_', s2)`. -/
abbrev isAlnumA (c : Char) : Prop := isUpperA c ∨ isLowerA c ∨ isDigitA c

/-! ## `os.path.splitext` (posix flavour)

`to_snake_case` first strips the extension with `os.path.splitext(name)[0]`.
CPython computes the index of the last `'/'` (`sepIndex`, `-1` when absent)
and the last `'.'` (`dotIndex`); the extension starts at `dotIndex` provided
`dotIndex > sepIndex` and at least one character strictly between
`sepIndex + 1` and `dotIndex` is not a dot (so `".bashrc"` has no
extension). -/

/-- Index of the last occurrence of `c` in `l`, if any. -/
def findLastIdx (c : Char) : List Char → Option ℕ
  | [] => none
  | x :: rest =>
    match findLastIdx c rest with
    | some i => some (i + 1)
    | none => if x = c then some 0 else none

/-- `os.path.splitext(name)[0]` on posix, on the character list of `name`. -/
def splitextBase (l : List Char) : List Char :=
  let sepIdx : ℤ := match findLastIdx '/' l with
    | some i => (i : ℤ)
    | none => -1
  let dotIdx : ℤ := match findLastIdx '.' l with
    | some i => (i : ℤ)
    | none => -1
  if sepIdx < dotIdx then
    if ((l.drop (sepIdx + 1).toNat).take (dotIdx - sepIdx - 1).toNat).any
        (fun c => decide (c ≠ '.')) then
      l.take dotIdx.toNat
    else l
  else l

/-! ## The three `re.sub` passes of `to_snake_case` -/

/-- `re.sub('(.)([A-Z][a-z]+)', r'\1_\2', name)`, fuelled so that the kernel
can evaluate it.  The scan tries to match at the current position: any
character other than a newline, then an uppercase letter, then a greedy
nonempty run of lowercase letters; on success the replacement keeps the
matched text and inserts `'_'` after the first character, and scanning
resumes after the match; on failure the scan advances one character. -/
def camelSub1F : ℕ → List Char → List Char
  | 0, l => l
  | _ + 1, [] => []
  | _ + 1, [c] => [c]
  | _ + 1, [c, u] => [c, u]
  | fuel + 1, c :: u :: l :: rest =>
    if c ≠ '\n' ∧ isUpperA u ∧ isLowerA l then
      c :: '_' :: u :: l ::
        ((rest.takeWhile fun x => decide (isLowerA x)) ++
          camelSub1F fuel (rest.dropWhile fun x => decide (isLowerA x)))
    else
      c :: camelSub1F fuel (u :: l :: rest)

/-- First substitution pass; every recursive call of `camelSub1F` consumes at
least one character, so `l.length + 1` fuel always suffices. -/
def camelSub1 (l : List Char) : List Char := camelSub1F (l.length + 1) l

/-- `re.sub('([a-z0-9])([A-Z])', r'\1_\2', s1)`: a two-character match; on
success scanning resumes after the matched pair. -/
def camelSub2 : List Char → List Char
  | [] => []
  | [c] => [c]
  | c :: u :: rest =>
    if (isLowerA c ∨ isDigitA c) ∧ isUpperA u then
      c :: '_' :: u :: camelSub2 rest
    else
      c :: camelSub2 (u :: rest)

/-- `re.sub(r'[^a-zA-Z0-9]', '_', s2)`: every character outside
`[a-zA-Z0-9]` is replaced by one underscore. -/
def specialSub (l : List Char) : List Char :=
  l.map fun c => if isAlnumA c then c else '_'

/-- `.lower()`.  After `specialSub` every character is ASCII, where Python's
`str.lower` agrees with `Char.toLower` characterwise. -/
def lowerAll (l : List Char) : List Char := l.map Char.toLower

/-- `to_snake_case` on character lists (`src/pdf_to_webp.py`, lines 7–15). -/
def toSnakeCaseL (l : List Char) : List Char :=
  lowerAll (specialSub (camelSub2 (camelSub1 (splitextBase l))))

/-- `to_snake_case` (`src/pdf_to_webp.py`, lines 7–15). -/
def to_snake_case (s : String) : String := ⟨toSnakeCaseL s.data⟩

/-! ## PIL images at the provenance level -/

/-- Provenance of one pixel: white canvas background, derived from the
source raster image, or out-of-bounds fill produced by `crop`. -/
inductive Pix where
  | bg : Pix
  | src : Pix
  | pad : Pix
deriving DecidableEq

/-- An image: pixel dimensions plus the provenance of every coordinate
(coordinates outside `[0, width) × [0, height)` are irrelevant). -/
structure Image where
  width : ℕ
  height : ℕ
  px : ℤ → ℤ → Pix

/-- `Image.new('RGB', (w, h), (255, 255, 255))`: a white canvas. -/
def Image.new (w h : ℕ) : Image := ⟨w, h, fun _ _ => .bg⟩

/-- The raster image of the first PDF page: every in-bounds pixel is source
material. -/
def mkSource (w h : ℕ) : Image :=
  ⟨w, h, fun x y =>
    if 0 ≤ x ∧ x < (w : ℤ) ∧ 0 ≤ y ∧ y < (h : ℤ) then .src else .pad⟩

/-- `img.resize((w, h), Image.LANCZOS)`.  Lanczos resampling is an external
capability; the embedding records only that every in-bounds pixel of the
result is derived from the source raster being resized. -/
def Image.resize (_img : Image) (w h : ℕ) : Image :=
  ⟨w, h, fun x y =>
    if 0 ≤ x ∧ x < (w : ℤ) ∧ 0 ≤ y ∧ y < (h : ℤ) then .src else .pad⟩

/-- `img.crop((l, t, r, b))`: the result has dimensions `(r - l, b - t)`;
pixels whose preimage falls outside `img` are PIL's zero fill (`Pix.pad`). -/
def Image.crop (img : Image) (l t r b : ℤ) : Image :=
  ⟨(r - l).toNat, (b - t).toNat, fun x y =>
    if 0 ≤ x ∧ x < r - l ∧ 0 ≤ y ∧ y < b - t then
      if 0 ≤ l + x ∧ l + x < (img.width : ℤ) ∧
          0 ≤ t + y ∧ t + y < (img.height : ℤ) then
        img.px (l + x) (t + y)
      else .pad
    else .pad⟩

/-- `canvas.paste(img, (ox, oy))`: the canvas keeps its dimensions; pixels
covered by `img` are taken from `img`. -/
def Image.paste (canvas img : Image) (ox oy : ℤ) : Image :=
  ⟨canvas.width, canvas.height, fun x y =>
    if ox ≤ x ∧ x < ox + (img.width : ℤ) ∧ oy ≤ y ∧ y < oy + (img.height : ℤ)
    then img.px (x - ox) (y - oy)
    else canvas.px x y⟩

/-! ## The compositor arithmetic of `create_uniform_thumbnail` -/

/-- Python's `int(...)` on a (here: rational-valued) float: truncation
toward zero. -/
def pyInt (q : ℚ) : ℤ := if q < 0 then -⌊-q⌋ else ⌊q⌋

/-- `img_ratio = img.width / img.height` (line 44), over exact rationals. -/
def imgRatioQ (w h : ℕ) : ℚ := (w : ℚ) / (h : ℚ)

/-- `target_ratio = target_width / target_height` (line 43). -/
def targetRatioQ (W H : ℕ) : ℚ := (W : ℚ) / (H : ℚ)

/-- `new_width = int(img_ratio * new_height)` in the wider branch
(line 53), where `new_height = target_height`. -/
def newWidthWide (w h H : ℕ) : ℤ := pyInt (imgRatioQ w h * (H : ℚ))

/-- `left = (new_width - target_width) // 2` (line 56); `//` is Python's
floor division. -/
def leftOffset (w h W H : ℕ) : ℤ := Int.fdiv (newWidthWide w h H - (W : ℤ)) 2

/-- `new_height = int(new_width / img_ratio)` in the taller-or-equal branch
(line 61), where `new_width = target_width`. -/
def newHeightTall (w h W : ℕ) : ℤ := pyInt ((W : ℚ) / imgRatioQ w h)

/-- `top = (new_height - target_height) // 2` (line 64). -/
def topOffset (w h W H : ℕ) : ℤ := Int.fdiv (newHeightTall w h W - (H : ℤ)) 2

/-- The image-processing body of `create_uniform_thumbnail`
(`src/pdf_to_webp.py`, lines 43–68), starting from a `w × h` raster of the
first PDF page and the `W × H` target.  `none` is a Python exception raised
inside the `try` block and caught by the broad `except` (line 72): the
`ZeroDivisionError` of `target_ratio` when `H = 0` (line 43), of
`img_ratio` when `h = 0` (line 44), or of `new_width / img_ratio` when
`img_ratio == 0` (line 61). -/
def createUniformThumbnail (w h W H : ℕ) : Option Image :=
  if H = 0 then none
  else if h = 0 then none
  else if targetRatioQ W H < imgRatioQ w h then
    some ((Image.new W H).paste
      (((mkSource w h).resize (newWidthWide w h H).toNat H).crop
        (leftOffset w h W H) 0 (leftOffset w h W H + (W : ℤ)) (H : ℤ))
      0 0)
  else if imgRatioQ w h = 0 then none
  else
    some ((Image.new W H).paste
      (((mkSource w h).resize W (newHeightTall w h W).toNat).crop
        0 (topOffset w h W H) (W : ℤ) (topOffset w h W H + (H : ℤ)))
      0 0)

/-- The boolean success signal of `create_uniform_thumbnail`: `True` when
the thumbnail is produced and saved, `False` when an exception was caught
(lines 70–74). -/
def createUniformThumbnailOk (w h W H : ℕ) : Bool :=
  (createUniformThumbnail w h W H).isSome

/-! ## The batch driver `main` (`src/pdf_to_webp.py`, lines 76–108) -/

/-- The filesystem state `main` observes: whether the source path exists,
whether it is a directory, and the directory listing. -/
structure Fs where
  pathExists : Bool
  isDir : Bool
  entries : List String

/-- `filename.lower().endswith('.pdf')` (line 97).  Python's `str.lower`
agrees with characterwise `Char.toLower` on ASCII filenames. -/
def isPdfName (s : String) : Bool :=
  ['.', 'p', 'd', 'f'].isSuffixOf (s.data.map Char.toLower)

/-- The success/failure counters of the `for` loop (lines 93–102), threaded
exactly as in the source: a non-PDF entry leaves both untouched; a PDF entry
increments the success counter when the conversion reports `True` and the
failure counter otherwise. -/
def tally (conv : String → Bool) : List String → ℕ × ℕ → ℕ × ℕ
  | [], acc => acc
  | f :: rest, acc =>
    tally conv rest
      (if isPdfName f then
        (if conv f then (acc.1 + 1, acc.2) else (acc.1, acc.2 + 1))
      else acc)

/-- Observable outcome of one run of `main`: the process exit status, which
path produced it, whether the `thumbnails` directory was ensured, and the
final counters. -/
structure MainResult where
  exitCode : ℕ
  viaFatalBranch : Bool
  uncaughtExc : Bool
  dirCreated : Bool
  success : ℕ
  failed : ℕ
deriving DecidableEq

/-- One run of `main`, parameterised by the filesystem and by the per-file
conversion outcome `conv` (the boolean returned by
`create_uniform_thumbnail`, which never lets an exception escape).
Branches:
* `os.path.exists` false → `sys.exit(1)` (lines 84–86), before
  `os.makedirs`;
* the path exists but is not a directory → `os.makedirs(...)` (line 90)
  raises `NotADirectoryError`, uncaught, so the interpreter terminates with
  a traceback and exit status 1, without creating the directory;
* otherwise the loop runs to completion and `main` returns, exit status 0. -/
def mainRun (fs : Fs) (conv : String → Bool) : MainResult :=
  if fs.pathExists = false then
    ⟨1, true, false, false, 0, 0⟩
  else if fs.isDir = false then
    ⟨1, false, true, false, 0, 0⟩
  else
    let c := tally conv fs.entries (0, 0)
    ⟨0, false, false, true, c.1, c.2⟩

/-- The characters `[a-z0-9_]` that `to_snake_case` can emit. -/
abbrev charsetP (c : Char) : Prop := isLowerA c ∨ isDigitA c ∨ c = '_'

/-! ## Lemmas about `to_snake_case` -/

theorem toNat_ofNat_lt {n : ℕ} (h : n < 55296) : (Char.ofNat n).toNat = n := by
  have hv : n.isValidChar := Or.inl h
  rw [Char.ofNat, dif_pos hv]
  rfl

theorem charsetP_final (c : Char) :
    charsetP (Char.toLower (if isAlnumA c then c else '_')) := by
  by_cases h : isAlnumA c
  · rw [if_pos h]
    rcases h with hu | hl | hd
    · simp only [Char.toLower]
      rw [if_pos ⟨hu.1, hu.2⟩]
      refine Or.inl ⟨?_, ?_⟩ <;> rw [toNat_ofNat_lt (by omega)] <;> omega
    · simp only [Char.toLower]
      rw [if_neg (by omega)]
      exact Or.inl hl
    · simp only [Char.toLower]
      rw [if_neg (by omega)]
      exact Or.inr (Or.inl hd)
  · rw [if_neg h]
    decide

theorem mem_toSnakeCaseL_charset {l : List Char} {x : Char}
    (hx : x ∈ toSnakeCaseL l) : charsetP x := by
  unfold toSnakeCaseL lowerAll specialSub at hx
  rw [List.map_map] at hx
  obtain ⟨y, -, rfl⟩ := List.mem_map.1 hx
  exact charsetP_final y

theorem charsetP.not_upper {c : Char} (h : charsetP c) : ¬ isUpperA c := by
  rcases h with h | h | h
  · omega
  · omega
  · subst h; decide

theorem charsetP.ne_dot {c : Char} (h : charsetP c) : c ≠ '.' := by
  rintro rfl
  rcases h with h | h | h <;> revert h <;> decide

theorem charsetP.toLower_eq {c : Char} (h : charsetP c) : Char.toLower c = c := by
  rcases h with h | h | h
  · simp only [Char.toLower]; rw [if_neg (by omega)]
  · simp only [Char.toLower]; rw [if_neg (by omega)]
  · subst h; decide

theorem charsetP.specialSub_eq {c : Char} (h : charsetP c) :
    (if isAlnumA c then c else '_') = c := by
  rcases h with h | h | h
  · exact if_pos (Or.inr (Or.inl h))
  · exact if_pos (Or.inr (Or.inr h))
  · subst h; decide

theorem findLastIdx_eq_none {c : Char} :
    ∀ {l : List Char}, (∀ x ∈ l, x ≠ c) → findLastIdx c l = none
  | [], _ => rfl
  | x :: rest, h => by
    rw [findLastIdx, findLastIdx_eq_none (fun y hy => h y (List.mem_cons_of_mem _ hy))]
    exact if_neg (h x (List.mem_cons_self _ _))

theorem splitextBase_of_no_dot {l : List Char} (hdot : ∀ x ∈ l, x ≠ '.') :
    splitextBase l = l := by
  unfold splitextBase
  rw [findLastIdx_eq_none hdot]
  cases hsep : findLastIdx '/' l with
  | none => simp
  | some i => simp only; rw [if_neg (by omega)]

theorem camelSub1F_of_no_upper :
    ∀ (fuel : ℕ) (l : List Char), (∀ x ∈ l, ¬ isUpperA x) → camelSub1F fuel l = l
  | 0, _, _ => rfl
  | _ + 1, [], _ => rfl
  | _ + 1, [_], _ => rfl
  | _ + 1, [_, _], _ => rfl
  | fuel + 1, c :: u :: x :: rest, h => by
    have hu : ¬ isUpperA u := h u (List.mem_cons_of_mem _ (List.mem_cons_self _ _))
    rw [camelSub1F, if_neg (fun hc => hu hc.2.1)]
    rw [camelSub1F_of_no_upper fuel (u :: x :: rest)
      (fun y hy => h y (List.mem_cons_of_mem _ hy))]

theorem camelSub2_of_no_upper :
    ∀ (l : List Char), (∀ x ∈ l, ¬ isUpperA x) → camelSub2 l = l
  | [], _ => rfl
  | [_], _ => rfl
  | c :: u :: rest, h => by
    have hu : ¬ isUpperA u := h u (List.mem_cons_of_mem _ (List.mem_cons_self _ _))
    rw [camelSub2, if_neg (fun hc => hu hc.2)]
    rw [camelSub2_of_no_upper (u :: rest) (fun y hy => h y (List.mem_cons_of_mem _ hy))]

theorem specialSub_of_charset :
    ∀ {l : List Char}, (∀ x ∈ l, charsetP x) → specialSub l = l
  | [], _ => rfl
  | a :: rest, h => by
    have ih := specialSub_of_charset (fun y hy => h y (List.mem_cons_of_mem _ hy))
    unfold specialSub at ih ⊢
    rw [List.map_cons, ih, (h a (List.mem_cons_self _ _)).specialSub_eq]

theorem lowerAll_of_charset :
    ∀ {l : List Char}, (∀ x ∈ l, charsetP x) → lowerAll l = l
  | [], _ => rfl
  | a :: rest, h => by
    have ih := lowerAll_of_charset (fun y hy => h y (List.mem_cons_of_mem _ hy))
    unfold lowerAll at ih ⊢
    rw [List.map_cons, ih, (h a (List.mem_cons_self _ _)).toLower_eq]

theorem toSnakeCaseL_idem (l : List Char) :
    toSnakeCaseL (toSnakeCaseL l) = toSnakeCaseL l := by
  have hcs : ∀ x ∈ toSnakeCaseL l, charsetP x := fun _ hx => mem_toSnakeCaseL_charset hx
  conv_lhs => rw [toSnakeCaseL, camelSub1]
  rw [splitextBase_of_no_dot (fun x hx => (hcs x hx).ne_dot)]
  rw [camelSub1F_of_no_upper _ _ (fun x hx => (hcs x hx).not_upper)]
  rw [camelSub2_of_no_upper _ (fun x hx => (hcs x hx).not_upper)]
  rw [specialSub_of_charset hcs]
  exact lowerAll_of_charset hcs

/-! ## Claims C4–C7 -/

/-- Claim C4, counterexample: the run of two spaces in `"a  b.pdf"` is NOT
collapsed to a single underscore — `re.sub(r'[^a-zA-Z0-9]', '_', ...)`
replaces each special character by its own underscore, so the output is
`"a__b"`, which contains two consecutive underscores produced by one maximal
non-alphanumeric run. -/
theorem c4_counterexample_run_not_collapsed :
    to_snake_case "a  b.pdf" = "a__b" ∧
    List.IsInfix ['_', '_'] (to_snake_case "a  b.pdf").data :=
  ⟨by decide, ⟨['a'], ['b'], by decide⟩⟩

/-- Claim C4 as amended: for every input filename the output of
`to_snake_case` contains only characters from `[a-z0-9_]`, but maximal runs
of non-alphanumeric characters are not collapsed: the final substitution
replaces every character by exactly one character (each non-alphanumeric
character by its own underscore), so a run of `k` special characters yields
`k` consecutive underscores. -/
theorem c4_output_charset_no_collapsing (s : String) :
    (∀ x ∈ (to_snake_case s).data, charsetP x) ∧
    (to_snake_case s).data.length =
      (camelSub2 (camelSub1 (splitextBase s.data))).length := by
  refine ⟨fun x hx => mem_toSnakeCaseL_charset hx, ?_⟩
  show (toSnakeCaseL s.data).length = _
  unfold toSnakeCaseL lowerAll specialSub
  rw [List.length_map, List.length_map]

/-- Claim C4 witness (amended): instantiated at `"a  b.pdf"`, whose output
`"a__b"` starts with the (lowercase) character `'a'`, and whose final
substitution-plus-lowercase stage preserves the length `4`. -/
theorem c4_output_charset_no_collapsing_witness :
    charsetP 'a' ∧
    (to_snake_case "a  b.pdf").data.length =
      (camelSub2 (camelSub1 (splitextBase ("a  b.pdf" : String).data))).length :=
  ⟨(c4_output_charset_no_collapsing "a  b.pdf").1 'a' (by decide),
    (c4_output_charset_no_collapsing "a  b.pdf").2⟩

/-- Claim C5, counterexample: `to_snake_case("MyFile Name.pdf")` is NOT
`"my_file_name"`: the first regex pass turns `"MyFile Name"` into
`"My_File _Name"` (the space is kept as the `(.)` group), and the space then
becomes an additional underscore next to the inserted one. -/
theorem c5_counterexample_myfile :
    to_snake_case "MyFile Name.pdf" ≠ "my_file_name" := by decide

/-- Claim C5 as amended: `to_snake_case("MyFile Name.pdf")` equals
`"my_file__name"` (with a double underscore), and
`to_snake_case("already_snake.pdf")` equals `"already_snake"`. -/
theorem c5_examples :
    to_snake_case "MyFile Name.pdf" = "my_file__name" ∧
    to_snake_case "already_snake.pdf" = "already_snake" :=
  ⟨by decide, by decide⟩

/-- Claim C6: `to_snake_case` is idempotent — applying it to its own output
yields the same string.  (The output contains only `[a-z0-9_]`, so the
second application strips no extension, finds no camel-case boundary, and
replaces and lowercases nothing.) -/
theorem c6_to_snake_case_idempotent (s : String) :
    to_snake_case (to_snake_case s) = to_snake_case s := by
  unfold to_snake_case
  exact congrArg String.mk (toSnakeCaseL_idem s.data)

/-- Claim C7: `to_snake_case` is a total function (the embedding returns a
`String` for every input, mirroring the exception-free source), and there
is an input whose extension-stripped part consists entirely of
non-alphanumeric characters and whose output is the empty string.  The
empty input is the only such input: any nonempty all-special input, e.g.
`"!!!.pdf"`, yields a nonempty all-underscore string (`"___"`). -/
theorem c7_empty_output_for_all_special_input :
    ∃ s : String, (∀ c ∈ splitextBase s.data, ¬ isAlnumA c) ∧
      to_snake_case s = "" :=
  ⟨"", by decide, by decide⟩

/-! ## Lemmas about the compositor arithmetic -/

theorem pyInt_of_nonneg {q : ℚ} (h : 0 ≤ q) : pyInt q = ⌊q⌋ :=
  if_neg (not_lt.2 h)

theorem imgRatioQ_nonneg (w h : ℕ) : 0 ≤ imgRatioQ w h :=
  div_nonneg (Nat.cast_nonneg w) (Nat.cast_nonneg h)

theorem targetRatioQ_nonneg (W H : ℕ) : 0 ≤ targetRatioQ W H :=
  div_nonneg (Nat.cast_nonneg W) (Nat.cast_nonneg H)

theorem imgRatioQ_pos {w h : ℕ} (hw : 0 < w) (hh : 0 < h) : 0 < imgRatioQ w h :=
  div_pos (by exact_mod_cast hw) (by exact_mod_cast hh)

/-- In the wider branch the resized width is at least the target width:
`img_ratio * target_height > target_ratio * target_height = target_width`,
and flooring a rational `> W` stays `≥ W`. -/
theorem newWidthWide_ge {w h W H : ℕ} (hH : 0 < H)
    (hq : targetRatioQ W H < imgRatioQ w h) :
    (W : ℤ) ≤ newWidthWide w h H := by
  have hHQ : (0 : ℚ) < (H : ℚ) := by exact_mod_cast hH
  have harg : (W : ℚ) ≤ imgRatioQ w h * (H : ℚ) := by
    have := mul_lt_mul_of_pos_right hq hHQ
    rw [targetRatioQ, div_mul_cancel₀ _ (ne_of_gt hHQ)] at this
    exact le_of_lt this
  have hnn : 0 ≤ imgRatioQ w h * (H : ℚ) :=
    mul_nonneg (imgRatioQ_nonneg w h) (by positivity)
  rw [newWidthWide, pyInt_of_nonneg hnn]
  exact Int.le_floor.2 (by exact_mod_cast harg)

/-- In the taller-or-equal branch the resized height is at least the target
height. -/
theorem newHeightTall_ge {w h W H : ℕ} (hw : 0 < w) (hh : 0 < h) (hH : 0 < H)
    (hq : ¬ targetRatioQ W H < imgRatioQ w h) :
    (H : ℤ) ≤ newHeightTall w h W := by
  have hr : 0 < imgRatioQ w h := imgRatioQ_pos hw hh
  have hHQ : (0 : ℚ) < (H : ℚ) := by exact_mod_cast hH
  have h1 : imgRatioQ w h * (H : ℚ) ≤ (W : ℚ) := by
    have := mul_le_mul_of_nonneg_right (not_lt.1 hq) (le_of_lt hHQ)
    rwa [targetRatioQ, div_mul_cancel₀ _ (ne_of_gt hHQ)] at this
  have harg : (H : ℚ) ≤ (W : ℚ) / imgRatioQ w h := by
    rw [le_div_iff₀ hr, mul_comm]
    exact h1
  have hnn : 0 ≤ (W : ℚ) / imgRatioQ w h :=
    div_nonneg (Nat.cast_nonneg W) (le_of_lt hr)
  rw [newHeightTall, pyInt_of_nonneg hnn]
  exact Int.le_floor.2 (by exact_mod_cast harg)

theorem leftOffset_nonneg {w h W H : ℕ} (hge : (W : ℤ) ≤ newWidthWide w h H) :
    0 ≤ leftOffset w h W H :=
  Int.fdiv_nonneg (by omega) (by norm_num)

theorem leftOffset_add_le {w h W H : ℕ} (hge : (W : ℤ) ≤ newWidthWide w h H) :
    leftOffset w h W H + (W : ℤ) ≤ newWidthWide w h H := by
  rw [leftOffset, Int.fdiv_eq_ediv _ (by norm_num)]
  omega

theorem topOffset_nonneg {w h W H : ℕ} (hge : (H : ℤ) ≤ newHeightTall w h W) :
    0 ≤ topOffset w h W H :=
  Int.fdiv_nonneg (by omega) (by norm_num)

theorem topOffset_add_le {w h W H : ℕ} (hge : (H : ℤ) ≤ newHeightTall w h W) :
    topOffset w h W H + (H : ℤ) ≤ newHeightTall w h W := by
  rw [topOffset, Int.fdiv_eq_ediv _ (by norm_num)]
  omega

/-- Pasting, at the origin of a `W × H` canvas, a region center-cropped out
of an image that fully contains the crop box yields source material at every
canvas coordinate. -/
theorem paste_crop_px (W H : ℕ) (inner : Image) (l t r b : ℤ)
    (hr : r = l + (W : ℤ)) (hb : b = t + (H : ℤ))
    (hl : 0 ≤ l) (ht : 0 ≤ t)
    (hlW : l + (W : ℤ) ≤ (inner.width : ℤ))
    (htH : t + (H : ℤ) ≤ (inner.height : ℤ))
    (hsrc : ∀ a c : ℤ, 0 ≤ a → a < (inner.width : ℤ) → 0 ≤ c →
      c < (inner.height : ℤ) → inner.px a c = .src)
    (x y : ℤ) (hx0 : 0 ≤ x) (hxW : x < (W : ℤ))
    (hy0 : 0 ≤ y) (hyH : y < (H : ℤ)) :
    ((Image.new W H).paste (inner.crop l t r b) 0 0).px x y = .src := by
  subst hr hb
  simp only [Image.paste, Image.new, Image.crop]
  split_ifs with h1 h2 h3
  · exact hsrc _ _ (by omega) (by omega) (by omega) (by omega)
  · exfalso; exact h3 ⟨by omega, by omega, by omega, by omega⟩
  · exfalso; exact h2 ⟨by omega, by omega, by omega, by omega⟩
  · exfalso; exact h1 ⟨by omega, by omega, by omega, by omega⟩

theorem resize_px_src (img : Image) (w' h' : ℕ) (a c : ℤ)
    (ha0 : 0 ≤ a) (haw : a < (w' : ℤ)) (hc0 : 0 ≤ c) (hch : c < (h' : ℤ)) :
    (img.resize w' h').px a c = .src := by
  simp only [Image.resize]
  exact if_pos ⟨ha0, haw, hc0, hch⟩

/-! ## Claims C1–C3 and C8 -/

/-- Claim C1: for positive source dimensions and positive target
dimensions, `create_uniform_thumbnail` produces exactly one output image and
its pixel dimensions are exactly `target_width × target_height`, in every
branch (wider, taller and equal aspect ratio): both branches paste onto the
`Image.new` canvas of exactly that size. -/
theorem c1_thumbnail_dimensions_exact (w h W H : ℕ)
    (hw : 0 < w) (hh : 0 < h) (_hW : 0 < W) (hH : 0 < H) :
    (createUniformThumbnail w h W H).map (fun t => (t.width, t.height)) =
      some (W, H) := by
  unfold createUniformThumbnail
  rw [if_neg (by omega), if_neg (by omega)]
  by_cases hq : targetRatioQ W H < imgRatioQ w h
  · rw [if_pos hq]; rfl
  · rw [if_neg hq, if_neg (ne_of_gt (imgRatioQ_pos hw hh))]; rfl

/-- Claim C1 witness: the dimensions are `400 × 300` for a wider (10:7), a
taller (7:10) and an equal-ratio (4:3) source. -/
theorem c1_thumbnail_dimensions_exact_witness :
    (createUniformThumbnail 10 7 400 300).map (fun t => (t.width, t.height)) =
      some (400, 300) ∧
    (createUniformThumbnail 7 10 400 300).map (fun t => (t.width, t.height)) =
      some (400, 300) ∧
    (createUniformThumbnail 4 3 400 300).map (fun t => (t.width, t.height)) =
      some (400, 300) :=
  ⟨c1_thumbnail_dimensions_exact 10 7 400 300 (by norm_num) (by norm_num)
      (by norm_num) (by norm_num),
    c1_thumbnail_dimensions_exact 7 10 400 300 (by norm_num) (by norm_num)
      (by norm_num) (by norm_num),
    c1_thumbnail_dimensions_exact 4 3 400 300 (by norm_num) (by norm_num)
      (by norm_num) (by norm_num)⟩

/-- Claim C2: for positive source and target dimensions, the resized
dimension in the scaled direction is at least the corresponding target
dimension (width in the wider branch, height in the taller-or-equal
branch), the center-crop offsets keep the crop box inside the resized
image, and consequently every pixel of the produced thumbnail is derived
from the source raster — no canvas background (white border) and no
out-of-bounds crop fill is visible. -/
theorem c2_crop_covers_canvas (w h W H : ℕ)
    (hw : 0 < w) (hh : 0 < h) (_hW : 0 < W) (hH : 0 < H) :
    (targetRatioQ W H < imgRatioQ w h →
      (W : ℤ) ≤ newWidthWide w h H ∧
      0 ≤ leftOffset w h W H ∧
      leftOffset w h W H + (W : ℤ) ≤ newWidthWide w h H) ∧
    (¬ targetRatioQ W H < imgRatioQ w h →
      (H : ℤ) ≤ newHeightTall w h W ∧
      0 ≤ topOffset w h W H ∧
      topOffset w h W H + (H : ℤ) ≤ newHeightTall w h W) ∧
    (∀ x y : ℤ, 0 ≤ x → x < (W : ℤ) → 0 ≤ y → y < (H : ℤ) →
      (createUniformThumbnail w h W H).map (fun t => t.px x y) =
        some Pix.src) := by
  refine ⟨fun hq => ⟨newWidthWide_ge hH hq, leftOffset_nonneg (newWidthWide_ge hH hq),
      leftOffset_add_le (newWidthWide_ge hH hq)⟩,
    fun hq => ⟨newHeightTall_ge hw hh hH hq,
      topOffset_nonneg (newHeightTall_ge hw hh hH hq),
      topOffset_add_le (newHeightTall_ge hw hh hH hq)⟩,
    fun x y hx0 hxW hy0 hyH => ?_⟩
  unfold createUniformThumbnail
  rw [if_neg (by omega), if_neg (by omega)]
  by_cases hq : targetRatioQ W H < imgRatioQ w h
  · rw [if_pos hq]
    have hge := newWidthWide_ge hH hq
    have hln := leftOffset_nonneg hge
    have hla := leftOffset_add_le hge
    simp only [Option.map_some']
    refine congrArg some (paste_crop_px W H _ _ _ _ _ rfl (by omega) hln le_rfl
      ?_ ?_ (fun a c ha0 haw hc0 hch => resize_px_src _ _ _ a c ha0 haw hc0 hch)
      x y hx0 hxW hy0 hyH)
    · show leftOffset w h W H + (W : ℤ) ≤ ((newWidthWide w h H).toNat : ℤ)
      omega
    · show (0 : ℤ) + (H : ℤ) ≤ ((H : ℕ) : ℤ)
      omega
  · rw [if_neg hq, if_neg (ne_of_gt (imgRatioQ_pos hw hh))]
    have hge := newHeightTall_ge hw hh hH hq
    have htn := topOffset_nonneg hge
    have hta := topOffset_add_le hge
    simp only [Option.map_some']
    refine congrArg some (paste_crop_px W H _ _ _ _ _ (by omega) rfl le_rfl htn
      ?_ ?_ (fun a c ha0 haw hc0 hch => resize_px_src _ _ _ a c ha0 haw hc0 hch)
      x y hx0 hxW hy0 hyH)
    · show (0 : ℤ) + (W : ℤ) ≤ ((W : ℕ) : ℤ)
      omega
    · show topOffset w h W H + (H : ℤ) ≤ ((newHeightTall w h W).toNat : ℤ)
      omega

/-- Claim C2 witness: concrete pixels of the wider 10:7 thumbnail and of
the taller 7:10 thumbnail are source material, not white background. -/
theorem c2_crop_covers_canvas_witness :
    (createUniformThumbnail 10 7 400 300).map (fun t => t.px 0 0) =
      some Pix.src ∧
    (createUniformThumbnail 7 10 400 300).map (fun t => t.px 399 299) =
      some Pix.src :=
  ⟨(c2_crop_covers_canvas 10 7 400 300 (by norm_num) (by norm_num)
      (by norm_num) (by norm_num)).2.2 0 0 (by norm_num) (by norm_num)
      (by norm_num) (by norm_num),
    (c2_crop_covers_canvas 7 10 400 300 (by norm_num) (by norm_num)
      (by norm_num) (by norm_num)).2.2 399 299 (by norm_num) (by norm_num)
      (by norm_num) (by norm_num)⟩

/-- Claim C3, counterexample: for a 10 × 7 source and 400 × 300 target the
wider branch is taken, and the code's `int(img_ratio * new_height)`
truncates `3000/7 = 428.57…` to `428`, while rounding to nearest would give
`429`. -/
theorem c3_counterexample_truncation :
    targetRatioQ 400 300 < imgRatioQ 10 7 ∧
    newWidthWide 10 7 300 = 428 ∧
    round (imgRatioQ 10 7 * (300 : ℚ)) = 429 ∧
    (428 : ℤ) ≠ 429 := by
  have hcast : ((300 : ℕ) : ℚ) = (300 : ℚ) := by norm_num
  have hprod : imgRatioQ 10 7 * ((300 : ℕ) : ℚ) =
      ((3000 : ℕ) : ℚ) / ((7 : ℕ) : ℚ) := by
    rw [imgRatioQ]; push_cast; norm_num
  have hnn : (0 : ℚ) ≤ imgRatioQ 10 7 * ((300 : ℕ) : ℚ) := by
    rw [imgRatioQ]; positivity
  refine ⟨by rw [targetRatioQ, imgRatioQ]; norm_num, ?_, ?_, by norm_num⟩
  · rw [newWidthWide, pyInt_of_nonneg hnn, hprod, Rat.floor_natCast_div_natCast]
    norm_num
  · rw [← hcast, hprod, round_eq,
      show ((3000 : ℕ) : ℚ) / ((7 : ℕ) : ℚ) + 1 / 2 =
        ((6007 : ℕ) : ℚ) / ((14 : ℕ) : ℚ) by push_cast; norm_num,
      Rat.floor_natCast_div_natCast]
    norm_num

/-- Claim C3 as amended: in the wider-source branch the resized width is
`int(source_ratio * target_height)`, i.e. `source_ratio * target_height`
truncated toward zero (equal to the integer floor `w * H / h`, not rounded
to nearest), and the horizontal crop offset is
`(new_width - target_width) // 2` (floor division, which agrees with
truncation toward zero here because `new_width ≥ target_width`). -/
theorem c3_truncated_width_and_offset (w h W H : ℕ)
    (_hh : 0 < h) (hH : 0 < H)
    (hq : targetRatioQ W H < imgRatioQ w h) :
    newWidthWide w h H = ((w * H / h : ℕ) : ℤ) ∧
    leftOffset w h W H = (((w * H / h - W : ℕ) / 2 : ℕ) : ℤ) := by
  have hfl : newWidthWide w h H = ((w * H / h : ℕ) : ℤ) := by
    have harg : imgRatioQ w h * (H : ℚ) = ((w * H : ℕ) : ℚ) / ((h : ℕ) : ℚ) := by
      rw [imgRatioQ]
      push_cast
      ring
    rw [newWidthWide, pyInt_of_nonneg
        (mul_nonneg (imgRatioQ_nonneg w h) (Nat.cast_nonneg H)), harg,
      Rat.floor_natCast_div_natCast, Int.natCast_div]
  refine ⟨hfl, ?_⟩
  have hge : (W : ℤ) ≤ newWidthWide w h H := newWidthWide_ge hH hq
  have hWle : W ≤ w * H / h := by
    rw [hfl] at hge
    exact_mod_cast hge
  rw [leftOffset, hfl, ← Nat.cast_sub hWle]
  rw [show ((2 : ℤ)) = ((2 : ℕ) : ℤ) from rfl, ← Int.ofNat_fdiv]

/-- Claim C3 witness (amended): for the 10 × 7 source and 400 × 300 target,
`new_width = 3000 / 7 = 428` and `left = (428 - 400) / 2 = 14`. -/
theorem c3_truncated_width_and_offset_witness :
    newWidthWide 10 7 300 = ((10 * 300 / 7 : ℕ) : ℤ) ∧
    leftOffset 10 7 400 300 = (((10 * 300 / 7 - 400 : ℕ) / 2 : ℕ) : ℤ) :=
  c3_truncated_width_and_offset 10 7 400 300 (by norm_num) (by norm_num)
    (by rw [targetRatioQ, imgRatioQ]; norm_num)

/-- Claim C8: a source image with zero width or zero height makes the ratio
computation raise `ZeroDivisionError` inside the `try` block (`h = 0` at
`img.width / img.height`; `w = 0` reaches the else-branch and divides by
`img_ratio == 0`), which the broad `except` catches, so
`create_uniform_thumbnail` reports failure (`False`) instead of crashing. -/
theorem c8_zero_dimension_fails (w h W H : ℕ) (hz : w = 0 ∨ h = 0) :
    createUniformThumbnailOk w h W H = false := by
  unfold createUniformThumbnailOk createUniformThumbnail
  by_cases hH : H = 0
  · rw [if_pos hH]; rfl
  · rw [if_neg hH]
    by_cases hzh : h = 0
    · rw [if_pos hzh]; rfl
    · rw [if_neg hzh]
      have hw0 : w = 0 := by tauto
      subst hw0
      have h0 : imgRatioQ 0 h = 0 := by
        rw [imgRatioQ]
        norm_num
      rw [if_neg (by rw [h0]; exact not_lt.2 (targetRatioQ_nonneg W H)),
        if_pos h0]
      rfl

/-- Claim C8 witness: a zero-width and a zero-height source both report
failure. -/
theorem c8_zero_dimension_fails_witness :
    createUniformThumbnailOk 0 5 400 300 = false ∧
    createUniformThumbnailOk 5 0 400 300 = false :=
  ⟨c8_zero_dimension_fails 0 5 400 300 (Or.inl rfl),
    c8_zero_dimension_fails 5 0 400 300 (Or.inr rfl)⟩

/-! ## Lemmas about the batch driver -/

/-- The loop counters, run from an arbitrary starting pair, add the number
of PDF entries converted successfully resp. unsuccessfully. -/
theorem tally_spec (conv : String → Bool) :
    ∀ (l : List String) (a b : ℕ),
      tally conv l (a, b) =
        (a + l.countP (fun f => isPdfName f && conv f),
          b + l.countP (fun f => isPdfName f && !(conv f)))
  | [], a, b => by simp [tally]
  | f :: rest, a, b => by
    rw [tally]
    cases hp : isPdfName f
    · rw [if_neg (by simp [hp]), tally_spec conv rest a b]
      simp [List.countP_cons, hp]
    · cases hc : conv f
      · rw [if_pos rfl, if_neg (by simp [hc]), tally_spec conv rest a (b + 1)]
        simp [List.countP_cons, hp, hc]
        omega
      · rw [if_pos rfl, if_pos rfl, tally_spec conv rest (a + 1) b]
        simp [List.countP_cons, hp, hc]
        omega

/-- Every PDF entry is counted exactly once, as a success or as a
failure. -/
theorem countP_pdf_split (conv : String → Bool) (l : List String) :
    l.countP (fun f => isPdfName f && conv f) +
      l.countP (fun f => isPdfName f && !(conv f)) =
      (l.filter isPdfName).length := by
  induction l with
  | nil => rfl
  | cons f rest ih =>
    cases hp : isPdfName f <;> cases hc : conv f <;>
      simp [List.countP_cons, List.filter_cons, hp, hc] <;> omega

/-! ## Claims C9 and C10 -/

/-- Claim C9: when the source path does not exist as a directory, the
process terminates with exit status 1 — via the explicit
`sys.exit(1)` when the path does not exist at all, and via the interpreter
aborting on the uncaught `NotADirectoryError` when the path exists as a
non-directory — in both cases before the output directory is created.
Otherwise the run finishes with exit code 0 regardless of how many per-file
conversions fail: `create_uniform_thumbnail` only ever reports a boolean
(modelled by `conv`), so every failure is counted and iteration continues
over all remaining files. -/
theorem c9_exit_codes (fs : Fs) (conv : String → Bool) :
    (¬ (fs.pathExists = true ∧ fs.isDir = true) →
      (mainRun fs conv).exitCode = 1 ∧ (mainRun fs conv).dirCreated = false) ∧
    (fs.pathExists = true → fs.isDir = true →
      (mainRun fs conv).exitCode = 0 ∧
      (mainRun fs conv).success =
        fs.entries.countP (fun f => isPdfName f && conv f) ∧
      (mainRun fs conv).failed =
        fs.entries.countP (fun f => isPdfName f && !(conv f)) ∧
      (mainRun fs conv).success + (mainRun fs conv).failed =
        (fs.entries.filter isPdfName).length) := by
  obtain ⟨pe, di, ent⟩ := fs
  constructor
  · intro hne
    cases pe
    · exact ⟨rfl, rfl⟩
    · cases di
      · exact ⟨rfl, rfl⟩
      · exact absurd ⟨rfl, rfl⟩ hne
  · intro hpe hdi
    cases pe
    · exact absurd hpe (by simp)
    · cases di
      · exact absurd hdi (by simp)
      · refine ⟨rfl, ?_, ?_, ?_⟩
        · show (tally conv ent (0, 0)).1 = _
          rw [tally_spec conv ent 0 0]
          simp
        · show (tally conv ent (0, 0)).2 = _
          rw [tally_spec conv ent 0 0]
          simp
        · show (tally conv ent (0, 0)).1 + (tally conv ent (0, 0)).2 = _
          rw [tally_spec conv ent 0 0]
          simpa using countP_pdf_split conv ent

/-- Claim C9 witness: a nonexistent path exits 1 without creating the
output directory; an existing directory with one convertible PDF, one
failing PDF (`.PDF` matches case-insensitively) and one non-PDF file exits
0 with one success and one failure. -/
theorem c9_exit_codes_witness :
    (mainRun ⟨false, true, []⟩ (fun _ => true)).exitCode = 1 ∧
    (mainRun ⟨false, true, []⟩ (fun _ => true)).dirCreated = false ∧
    (mainRun ⟨true, true, ["good.pdf", "Bad.PDF", "notes.txt"]⟩
      (fun f => f == "good.pdf")).exitCode = 0 ∧
    (mainRun ⟨true, true, ["good.pdf", "Bad.PDF", "notes.txt"]⟩
      (fun f => f == "good.pdf")).success = 1 ∧
    (mainRun ⟨true, true, ["good.pdf", "Bad.PDF", "notes.txt"]⟩
      (fun f => f == "good.pdf")).failed = 1 := by
  have h1 := (c9_exit_codes ⟨false, true, []⟩ (fun _ => true)).1 (by simp)
  have h2 := (c9_exit_codes ⟨true, true, ["good.pdf", "Bad.PDF", "notes.txt"]⟩
    (fun f => f == "good.pdf")).2 rfl rfl
  refine ⟨h1.1, h1.2, h2.1, ?_, ?_⟩
  · rw [h2.2.1]; rfl
  · rw [h2.2.2.1]; rfl

/-- Claim C10: the fatal-error branch (`print` plus `sys.exit(1)`) is taken
exactly when the source path does not exist at all; a path that exists but
is not a directory passes the `os.path.exists` check, and the subsequent
`os.makedirs` raises an uncaught exception instead of the specified fatal
error. -/
theorem c10_fatal_branch_iff_nonexistent (fs : Fs) (conv : String → Bool) :
    ((mainRun fs conv).viaFatalBranch = true ↔ fs.pathExists = false) ∧
    (fs.pathExists = true → fs.isDir = false →
      (mainRun fs conv).uncaughtExc = true ∧
      (mainRun fs conv).viaFatalBranch = false) := by
  obtain ⟨pe, di, ent⟩ := fs
  cases pe <;> cases di <;> simp [mainRun]

/-- Claim C10 witness: a file path (exists, not a directory) yields the
uncaught-exception outcome and not the fatal branch; a nonexistent path
yields the fatal branch. -/
theorem c10_fatal_branch_iff_nonexistent_witness :
    (mainRun ⟨true, false, ["x.pdf"]⟩ (fun _ => true)).uncaughtExc = true ∧
    (mainRun ⟨true, false, ["x.pdf"]⟩ (fun _ => true)).viaFatalBranch = false ∧
    (mainRun ⟨false, false, []⟩ (fun _ => true)).viaFatalBranch = true :=
  ⟨((c10_fatal_branch_iff_nonexistent ⟨true, false, ["x.pdf"]⟩
      (fun _ => true)).2 rfl rfl).1,
    ((c10_fatal_branch_iff_nonexistent ⟨true, false, ["x.pdf"]⟩
      (fun _ => true)).2 rfl rfl).2,
    (c10_fatal_branch_iff_nonexistent ⟨false, false, []⟩
      (fun _ => true)).1.mpr rfl⟩

end PdfToWebp
